import Mathlib

/-!
# Verification of the aio-sockets core against its specification

Shallow embedding of `src/aio_sockets/aio_sockets.py`.

The datagram bridge (`UDPProtocol`) and datagram channel (`UDPSocket`) are
translated directly from the source: the bridge holds an error latch
(`self.error`) and a bounded FIFO of envelopes (`self.packets_queue`, an
asyncio `Queue`), the channel wraps a transport plus one bridge.  Python
byte strings are modelled as `List Nat`, addresses by a two-variant
inductive, exceptions by the inductive `Exn`.  Suspension of an `await`
is modelled by an explicit outcome constructor (`none` / `.suspend`): a
call that would block forever on the current state returns it.

Parts of the behaviour that live in the Python standard library rather
than in this repository (the datagram transport's `sendto`, the stream
reader's `readexactly`, `asyncio.gather`) are modelled from the
specification's description of them; each such definition carries a doc
comment saying so.
-/

/-- Python byte strings, one `Nat` per byte. -/
abbrev Bytes := List Nat

/-- Addresses: IPv4 `(host, port)` or IPv6 `(host, port, flow_info, scope_id)`,
as in the source's `IPv4Address` / `IPv6Address` aliases. -/
inductive IPAddress where
  | v4 (host : String) (port : Nat)
  | v6 (host : String) (port : Nat) (flowInfo : Nat) (scopeId : Nat)
  deriving DecidableEq

/-- The exception values the modelled code can raise. `transportError n`
stands for a transport-level `OSError` delivered to `error_received`
(`n` distinguishes distinct errors); the remaining constructors mirror the
spec's error kinds. -/
inductive Exn where
  | transportError (code : Nat)
  | notConnected
  | timeoutError
  | incompleteRead
  | queueFull
  deriving DecidableEq

/-- An envelope in the bridge's queue: the source enqueues either
`(data, addr)` for a received datagram or `(None, None)` as the terminal
sentinel, so an envelope is `some (data, addr)` or `none`. -/
abbrev Envelope := Option (Bytes × IPAddress)

/-- The bridge's bounded FIFO (`asyncio.Queue`): `maxsize = 0` means
unbounded, and the head of `items` is the next envelope to be dequeued. -/
structure PQueue where
  maxsize : Nat
  items : List Envelope
  deriving DecidableEq

/-- `Queue.full()`: false when unbounded, otherwise the current size has
reached `maxsize`. -/
def PQueue.full (q : PQueue) : Bool :=
  if q.maxsize = 0 then false else q.maxsize ≤ q.items.length

/-- `Queue.put_nowait(item)`: raises `QueueFull` when the queue is full,
otherwise appends at the tail. -/
def PQueue.put_nowait (q : PQueue) (item : Envelope) : Except Exn PQueue :=
  if q.full then .error .queueFull
  else .ok { q with items := q.items ++ [item] }

/-- The datagram bridge `UDPProtocol`: the error latch `self.error` and the
envelope FIFO `self.packets_queue`. -/
structure UDPProtocol where
  error : Option Exn
  packets_queue : PQueue
  deriving DecidableEq

/-- `UDPProtocol.__init__(queue_size)`: empty latch, empty queue of the
given capacity. -/
def UDPProtocol.init (queue_size : Nat) : UDPProtocol :=
  { error := none, packets_queue := { maxsize := queue_size, items := [] } }

/-- `UDPProtocol.connection_lost`: enqueue the `(None, None)` sentinel.
The second component is the exception escaping the callback, if any. -/
def UDPProtocol.connection_lost (p : UDPProtocol) : UDPProtocol × Option Exn :=
  match p.packets_queue.put_nowait none with
  | .ok q => ({ p with packets_queue := q }, none)
  | .error e => (p, some e)

/-- `UDPProtocol.datagram_received(data, addr)`: enqueue the envelope.
The second component is the exception escaping the callback, if any. -/
def UDPProtocol.datagram_received (p : UDPProtocol) (data : Bytes) (addr : IPAddress) :
    UDPProtocol × Option Exn :=
  match p.packets_queue.put_nowait (some (data, addr)) with
  | .ok q => ({ p with packets_queue := q }, none)
  | .error e => (p, some e)

/-- `UDPProtocol.error_received(exc)`: store the error in the latch
(`self.error = exc`, with no emptiness test) and enqueue a sentinel.
The second component is the exception escaping the callback, if any. -/
def UDPProtocol.error_received (p : UDPProtocol) (exc : Exn) : UDPProtocol × Option Exn :=
  let p1 : UDPProtocol := { p with error := some exc }
  match p1.packets_queue.put_nowait none with
  | .ok q => ({ p1 with packets_queue := q }, none)
  | .error e => (p1, some e)

/-- `UDPProtocol.recvfrom`: `await self.packets_queue.get()`.  Returns
`none` when the queue is empty (the call suspends), otherwise the head
envelope and the bridge with that envelope consumed. -/
def UDPProtocol.recvfrom (p : UDPProtocol) : Option (Envelope × UDPProtocol) :=
  match p.packets_queue.items with
  | [] => none
  | env :: rest =>
      some (env, { p with packets_queue := { p.packets_queue with items := rest } })

/-- `UDPProtocol.raise_if_error`: if the latch is empty do nothing; else
clear the latch and raise the latched error.  Returns the raised error (if
any) together with the post-state. -/
def UDPProtocol.raise_if_error (p : UDPProtocol) : Option Exn × UDPProtocol :=
  match p.error with
  | none => (none, p)
  | some e => (some e, { p with error := none })

/-- Modelled from the spec: the asyncio datagram transport (not part of
this repository).  Its `sendto` uses the explicit address when given,
falls back to the configured fixed remote address, and fails with
`NotConnected` when neither is available; a successful submission is
recorded in `sent`. -/
structure Transport where
  remote_addr : Option IPAddress
  sent : List (Bytes × IPAddress)
  deriving DecidableEq

/-- Modelled from the spec: non-blocking datagram submission, see
`Transport`. -/
def Transport.sendto (t : Transport) (data : Bytes) (addr : Option IPAddress) :
    Except Exn Transport :=
  match addr with
  | some a => .ok { t with sent := t.sent ++ [(data, a)] }
  | none =>
      match t.remote_addr with
      | some a => .ok { t with sent := t.sent ++ [(data, a)] }
      | none => .error .notConnected

/-- The datagram channel `UDPSocket`: a transport plus its bridge. -/
structure UDPSocket where
  transport : Transport
  protocol : UDPProtocol
  deriving DecidableEq

/-- Outcome of `UDPSocket.recvfrom`: the call suspends (empty queue),
raises an exception, or returns the dequeued envelope; `raised` and
`returned` carry the channel's post-state. -/
inductive RecvOutcome where
  | suspend
  | raised (e : Exn) (s : UDPSocket)
  | returned (env : Envelope) (s : UDPSocket)
  deriving DecidableEq

/-- `UDPSocket.sendto(data, addr)`: submit to the transport, then
`raise_if_error()`.  Returns the raised exception (if any) and the
post-state; a transport failure propagates before the latch is consulted. -/
def UDPSocket.sendto (s : UDPSocket) (data : Bytes) (addr : Option IPAddress) :
    Option Exn × UDPSocket :=
  match Transport.sendto s.transport data addr with
  | .error e => (some e, s)
  | .ok t =>
      match UDPProtocol.raise_if_error s.protocol with
      | (eo, p2) => (eo, { transport := t, protocol := p2 })

/-- `UDPSocket.recvfrom()`: await an envelope from the bridge, then
`raise_if_error()`, then return the envelope. -/
def UDPSocket.recvfrom (s : UDPSocket) : RecvOutcome :=
  match UDPProtocol.recvfrom s.protocol with
  | none => .suspend
  | some (env, p1) =>
      match UDPProtocol.raise_if_error p1 with
      | (some e, p2) => .raised e { s with protocol := p2 }
      | (none, p2) => .returned env { s with protocol := p2 }

/-- Outcome of `UDPSocket.recvfrom_timeout`: the deadline expires
(`timedOut` carries the unchanged channel state), or the inner receive
completes before it. -/
inductive TimedOutcome where
  | timedOut (s : UDPSocket)
  | raised (e : Exn) (s : UDPSocket)
  | returned (env : Envelope) (s : UDPSocket)
  deriving DecidableEq

/-- `UDPSocket.recvfrom_timeout(timeout)`: `wait_for(self.recvfrom(), ...)`
over a wait window in which no transport callback fires.  If an envelope
is already available the inner receive completes before the deadline;
otherwise the inner receive is still suspended in `queue.get()` at the
deadline, `wait_for` cancels it there and raises `TimeoutError`, and no
bridge state has been touched. -/
def UDPSocket.recvfrom_timeout (s : UDPSocket) : TimedOutcome :=
  match UDPSocket.recvfrom s with
  | .suspend => .timedOut s
  | .raised e t => .raised e t
  | .returned env t => .returned env t

/-- Deliver a list of datagrams to the bridge by successive
`datagram_received` callbacks; stops at the first callback whose
`put_nowait` raises (second component). -/
def deliverAll : UDPProtocol → List (Bytes × IPAddress) → UDPProtocol × Option Exn
  | p, [] => (p, none)
  | p, (d, a) :: rest =>
      match UDPProtocol.datagram_received p d a with
      | (p1, none) => deliverAll p1 rest
      | (p1, some e) => (p1, some e)

/-- Perform `n` successive `UDPSocket.recvfrom()` calls, collecting the
returned envelopes in call order; stops early if a call suspends or
raises. -/
def receiveList : UDPSocket → Nat → List Envelope × UDPSocket
  | s, 0 => ([], s)
  | s, n + 1 =>
      match UDPSocket.recvfrom s with
      | .returned env t =>
          let r := receiveList t n
          (env :: r.1, r.2)
      | _ => ([], s)

/-- Modelled from the spec: the asyncio stream reader (not part of this
repository).  `data` is the complete remaining byte stream the peer will
deliver; `eof` says whether the peer closes the stream after `data`. -/
structure StreamReader where
  data : List Nat
  eof : Bool
  deriving DecidableEq

/-- Modelled from the spec: `StreamReader.readexactly(n)` suspends until
exactly `n` bytes have been collected (`none` when that never happens) or
the stream closes first; on early close it fails with `IncompleteRead`
and the partially accumulated bytes are discarded, not returned. -/
def StreamReader.readexactly (r : StreamReader) (n : Nat) :
    Option (Except Exn (List Nat) × StreamReader) :=
  if n ≤ r.data.length then
    some (.ok (r.data.take n), { data := r.data.drop n, eof := r.eof })
  else if r.eof then
    some (.error .incompleteRead, { data := [], eof := true })
  else
    none

/-- The stream channel `TCPSocket`; the claims under verification only
touch its read side, so only the reader is carried. -/
structure TCPSocket where
  reader : StreamReader
  deriving DecidableEq

/-- `TCPSocket.recv_exactly(n)`: `await self.reader.readexactly(n)`. -/
def TCPSocket.recv_exactly (s : TCPSocket) (n : Nat) :
    Option (Except Exn (List Nat) × TCPSocket) :=
  match StreamReader.readexactly s.reader n with
  | none => none
  | some (res, r2) => some (res, { reader := r2 })

/-- Completion of a unit of work: either a result value or a captured
failure (Python distinguishes the two with `isinstance(result, Exception)`). -/
inductive TaskOutcome where
  | result (v : Nat)
  | failure (e : Exn)
  deriving DecidableEq

/-- An asyncio task as the supervisor sees it: its name
(`task.get_name()`), the name of its coroutine function
(`task.get_coro().__name__`), and its eventual outcome. -/
structure PyTask where
  name : String
  coroName : String
  outcome : TaskOutcome
  deriving DecidableEq

/-- One line emitted through `logfunc`: the task's name, its coroutine
function's name, and either the returned result or the caught exception
(colour escape codes of the source's formatting are abstracted away). -/
structure LogEntry where
  taskName : String
  funcName : String
  outcome : TaskOutcome
  deriving DecidableEq

/-- Modelled from the spec: `asyncio.gather(*tasks, return_exceptions=True)`
(not part of this repository) awaits every task to completion and returns,
in input order, each task's result or its captured exception; one task's
failure neither cancels nor blocks the others. -/
def gather_return_exceptions (tasks : List PyTask) : List TaskOutcome :=
  tasks.map (fun t => t.outcome)

/-- The log line written for one `(task, result)` pair of the supervisor's
reporting loop. -/
def logEntryFor (t : PyTask) (r : TaskOutcome) : LogEntry :=
  { taskName := t.name, funcName := t.coroName, outcome := r }

/-- `wait_all_tasks_done(tasks, log_result)` with an explicit task list:
gather all outcomes, log one line per `(task, result)` pair when
`log_result` is set, and return `None`.  The first component is the value
returned to the caller; the second is the sequence of log lines emitted. -/
def wait_all_tasks_done_explicit (tasks : List PyTask) (log_result : Bool) :
    Unit × List LogEntry :=
  let ret := gather_return_exceptions tasks
  ((), if log_result then (tasks.zip ret).map (fun tr => logEntryFor tr.1 tr.2) else [])

/-- The per-scan exclusion step of discovery mode: iterate over the
scanned task set and remove the first task named `Task-1` (the main task
started by `asyncio.run`), then stop looking (`break`). -/
def removeFirstTask1 : List PyTask → List PyTask
  | [] => []
  | t :: rest => if t.name = "Task-1" then rest else t :: removeFirstTask1 rest

/-- Whether a scan is empty once the `Task-1` removal has been applied. -/
def emptyScanB (scan : List PyTask) : Bool :=
  (removeFirstTask1 scan).isEmpty

/-- Result of the discovery-mode loop on a finite oracle of scans:
`done` when the loop breaks (carrying the log lines emitted so far), or
`fuelOut` when the oracle is exhausted with the loop still running
(carrying the consecutive-empty counter and log lines at that point). -/
inductive DiscResult where
  | done (logs : List LogEntry)
  | fuelOut (empties : Nat) (logs : List LogEntry)
  deriving DecidableEq

/-- `wait_all_tasks_done(None, log_result)`, the discovery-mode loop.
The ambient environment is abstracted as an oracle list of scans, the
successive results of `asyncio.all_tasks()` (already in iteration order).
Each iteration removes the first task named `Task-1`; a non-empty
remainder is gathered and logged and resets `task_empty_times` to zero,
an empty remainder increments it, and the loop breaks as soon as the
counter exceeds two. -/
def discoveryRun (log_result : Bool) : Nat → List LogEntry → List (List PyTask) → DiscResult
  | e, logs, [] => .fuelOut e logs
  | e, logs, scan :: rest =>
      let ts := removeFirstTask1 scan
      if ts.isEmpty then
        if e + 1 > 2 then .done logs
        else discoveryRun log_result (e + 1) logs rest
      else
        discoveryRun log_result 0
          (logs ++ (if log_result then
            (ts.zip (gather_return_exceptions ts)).map (fun tr => logEntryFor tr.1 tr.2)
          else [])) rest

/-- Whether the scan oracle contains three consecutive scans that are
empty after the `Task-1` removal. -/
def hasEmptyTriple : List (List PyTask) → Bool
  | a :: b :: c :: rest =>
      (emptyScanB a && emptyScanB b && emptyScanB c) || hasEmptyTriple (b :: c :: rest)
  | _ => false

/-- The number of leading scans that are empty after the `Task-1`
removal. -/
def leadingEmpty : List (List PyTask) → Nat
  | [] => 0
  | scan :: rest => if emptyScanB scan then leadingEmpty rest + 1 else 0

/-! ## Example states used by witnesses and counterexamples -/

/-- A bridge whose error latch is occupied and whose unbounded queue is
empty. -/
def protoLatched : UDPProtocol :=
  { error := some (.transportError 1),
    packets_queue := { maxsize := 0, items := [] } }

/-- A channel whose latch holds an error while a non-sentinel envelope is
queued. -/
def sockLatchedWithDatagram : UDPSocket :=
  { transport := { remote_addr := none, sent := [] },
    protocol := { error := some (.transportError 7),
                  packets_queue := { maxsize := 0, items := [some ([1, 2], .v4 "peer" 9)] } } }

/-- A channel with no configured remote address. -/
def sockUnconnected : UDPSocket :=
  { transport := { remote_addr := none, sent := [] },
    protocol := UDPProtocol.init 0 }

/-- A channel with an occupied latch and an empty queue. -/
def sockLatchedEmpty : UDPSocket :=
  { transport := { remote_addr := some (.v4 "srv" 1), sent := [] },
    protocol := { error := some (.transportError 9),
                  packets_queue := { maxsize := 0, items := [] } } }

/-! ## Claim theorems -/

/-- C1: counterexample.  The claim says a transport-level receive error is
stored in the Error Latch only if the latch is currently empty (first
error wins).  In the code `error_received` assigns `self.error = exc`
unconditionally: delivering a second error while `transportError 1` is
still latched leaves the latch holding `transportError 2`, so the second
error does replace the latched one. -/
theorem error_latch_overwrite_counterexample :
    protoLatched.error = some (.transportError 1) ∧
    (UDPProtocol.error_received protoLatched (.transportError 2)).1.error
      = some (.transportError 2) ∧
    some (Exn.transportError 2) ≠ some (Exn.transportError 1) := by
  decide

/-- C1 (amended): on a transport-level receive error the bridge stores
the error in the Error Latch unconditionally — a later error replaces an
unobserved earlier one (last error wins) — and enqueues a sentinel
envelope so a pending receive wakes up (shown here for a non-full
queue). -/
theorem error_received_latches_last_error (p : UDPProtocol) (exc : Exn)
    (h : p.packets_queue.full = false) :
    UDPProtocol.error_received p exc =
      ({ error := some exc,
         packets_queue := { maxsize := p.packets_queue.maxsize,
                            items := p.packets_queue.items ++ [none] } }, none) := by
  simp [UDPProtocol.error_received, PQueue.put_nowait, h]

/-- Witness for the amended C1 theorem at a bridge whose latch already
holds `transportError 1`. -/
theorem error_received_latch_witness :
    UDPProtocol.error_received protoLatched (.transportError 2) =
      ({ error := some (.transportError 2),
         packets_queue := { maxsize := 0, items := [none] } }, none) :=
  error_received_latches_last_error protoLatched (.transportError 2) rfl

/-- C2: counterexample.  The claim says `receive()` consults the Error
Latch exactly when the dequeued envelope is a sentinel, and that a
dequeued non-sentinel envelope is returned as its payload and source
address.  In the code `recvfrom` calls `raise_if_error()` after every
dequeue: on a channel whose latch holds `transportError 7` while a
non-sentinel datagram is queued, the call dequeues the datagram but
raises the latched error instead of returning the payload. -/
theorem recvfrom_nonsentinel_raises_counterexample :
    UDPSocket.recvfrom sockLatchedWithDatagram =
      .raised (.transportError 7)
        { transport := { remote_addr := none, sent := [] },
          protocol := { error := none,
                        packets_queue := { maxsize := 0, items := [] } } } := by
  decide

/-- C2 (amended): `receive()` suspends until an envelope is available and
consults the Error Latch after every dequeue, not only on sentinels: if
the latch is non-empty the call fails with the latched error and clears
the latch, discarding the dequeued envelope; if the latch is empty the
dequeued envelope is returned — a sentinel (`none`) as the end-of-stream
indication, a non-sentinel as its payload and source address. -/
theorem recvfrom_checks_latch_on_every_dequeue (s : UDPSocket) :
    (s.protocol.packets_queue.items = [] → UDPSocket.recvfrom s = .suspend) ∧
    (∀ env rest, s.protocol.packets_queue.items = env :: rest →
      (∀ e, s.protocol.error = some e →
        UDPSocket.recvfrom s = .raised e
          { transport := s.transport,
            protocol := { error := none,
                          packets_queue := { maxsize := s.protocol.packets_queue.maxsize,
                                             items := rest } } }) ∧
      (s.protocol.error = none →
        UDPSocket.recvfrom s = .returned env
          { transport := s.transport,
            protocol := { error := none,
                          packets_queue := { maxsize := s.protocol.packets_queue.maxsize,
                                             items := rest } } })) := by
  obtain ⟨t, err, ms, items⟩ := s
  refine ⟨?_, ?_⟩
  · intro h
    simp only at h
    subst h
    rfl
  · intro env rest h
    simp only at h
    subst h
    refine ⟨?_, ?_⟩
    · intro e he
      simp only at he
      subst he
      rfl
    · intro he
      simp only at he
      subst he
      rfl

/-- Witness for the amended C2 theorem: with an empty latch, a dequeued
non-sentinel envelope is returned as payload and address. -/
theorem recvfrom_checks_latch_witness :
    UDPSocket.recvfrom
        { transport := { remote_addr := none, sent := [] },
          protocol := { error := none,
                        packets_queue := { maxsize := 0,
                                           items := [some ([3], .v4 "p" 1), none] } } } =
      .returned (some ([3], .v4 "p" 1))
        { transport := { remote_addr := none, sent := [] },
          protocol := { error := none,
                        packets_queue := { maxsize := 0, items := [none] } } } :=
  ((recvfrom_checks_latch_on_every_dequeue _).2 (some ([3], .v4 "p" 1)) [none] rfl).2 rfl

/-- C5: `send_to` with the address argument omitted, on a channel with no
configured fixed remote address, fails with `NotConnected`. -/
theorem sendto_without_address_not_connected (s : UDPSocket) (d : Bytes)
    (h : s.transport.remote_addr = none) :
    (UDPSocket.sendto s d none).1 = some .notConnected := by
  simp [UDPSocket.sendto, Transport.sendto, h]

/-- Witness for C5 on a concrete unconnected channel. -/
theorem sendto_not_connected_witness :
    (UDPSocket.sendto sockUnconnected [1, 2] none).1 = some .notConnected :=
  sendto_without_address_not_connected sockUnconnected [1, 2] rfl

/-- C6: when a timed receive expires with no envelope available before
the deadline, the call fails with `Timeout` carrying the channel state
unchanged: the Error Latch holds the same value as before the call, no
queued envelope is consumed, and every subsequent call behaves exactly as
it would have from the pre-call state. -/
theorem recvfrom_timeout_preserves_state (s : UDPSocket)
    (h : s.protocol.packets_queue.items = []) :
    UDPSocket.recvfrom_timeout s = .timedOut s := by
  obtain ⟨t, err, ms, items⟩ := s
  simp only at h
  subst h
  rfl

/-- Witness for C6 on a channel whose latch is occupied: the timeout
leaves the latched error in place. -/
theorem recvfrom_timeout_witness :
    UDPSocket.recvfrom_timeout sockLatchedEmpty = .timedOut sockLatchedEmpty :=
  recvfrom_timeout_preserves_state sockLatchedEmpty rfl

/-- A channel whose latch holds an error with the matching sentinel
queued, as left behind by `error_received`. -/
def sockLatchedSentinel : UDPSocket :=
  { transport := { remote_addr := none, sent := [] },
    protocol := { error := some (.transportError 5),
                  packets_queue := { maxsize := 0, items := [none] } } }

/-- C3: a latched transport error is surfaced exactly once.  On a channel
whose latch holds `e`: the next completing `receive` raises `e` and
clears the latch; the next `send_to` (with a successful transport
submission) raises `e` and clears the latch; and from any channel state
whose latch is empty, `receive` never raises and `send_to` with an
explicit address raises nothing — so the same latched error is never
surfaced a second time absent a new failure. -/
theorem transport_error_surfaced_exactly_once (s : UDPSocket) (e : Exn)
    (h : s.protocol.error = some e) :
    (∀ env rest, s.protocol.packets_queue.items = env :: rest →
      UDPSocket.recvfrom s = .raised e
        { transport := s.transport,
          protocol := { error := none,
                        packets_queue := { maxsize := s.protocol.packets_queue.maxsize,
                                           items := rest } } }) ∧
    (∀ d a, UDPSocket.sendto s d (some a) =
      (some e,
       { transport := { remote_addr := s.transport.remote_addr,
                        sent := s.transport.sent ++ [(d, a)] },
         protocol := { error := none,
                       packets_queue := s.protocol.packets_queue } })) ∧
    (∀ s2 : UDPSocket, s2.protocol.error = none →
      (∀ e2 s3, UDPSocket.recvfrom s2 ≠ .raised e2 s3) ∧
      (∀ d a, (UDPSocket.sendto s2 d (some a)).1 = none)) := by
  obtain ⟨⟨ra, sent⟩, err, ms, items⟩ := s
  simp only at h
  subst h
  refine ⟨?_, ?_, ?_⟩
  · intro env rest hq
    simp only at hq
    subst hq
    rfl
  · intro d a
    rfl
  · intro s2 h2
    obtain ⟨⟨ra2, sent2⟩, err2, ms2, items2⟩ := s2
    simp only at h2
    subst h2
    refine ⟨?_, ?_⟩
    · intro e2 s3
      cases items2 with
      | nil => simp [UDPSocket.recvfrom, UDPProtocol.recvfrom]
      | cons env rest =>
          simp [UDPSocket.recvfrom, UDPProtocol.recvfrom, UDPProtocol.raise_if_error]
    · intro d a
      rfl

/-- Witness for C3: the pending receive on a channel left by
`error_received` raises the latched error and clears the latch. -/
theorem transport_error_once_witness :
    UDPSocket.recvfrom sockLatchedSentinel =
      .raised (.transportError 5)
        { transport := { remote_addr := none, sent := [] },
          protocol := { error := none,
                        packets_queue := { maxsize := 0, items := [] } } } :=
  (transport_error_surfaced_exactly_once sockLatchedSentinel (.transportError 5) rfl).1
    none [] rfl

/-- Delivering datagrams to a fresh bridge within its capacity produces no
overflow and leaves the envelopes queued in callback-arrival order. -/
lemma deliverAll_within_capacity (qs : Nat) (acc : List Envelope)
    (ds : List (Bytes × IPAddress)) (h : qs = 0 ∨ acc.length + ds.length ≤ qs) :
    deliverAll { error := none, packets_queue := { maxsize := qs, items := acc } } ds =
      ({ error := none,
         packets_queue := { maxsize := qs,
                            items := acc ++ ds.map (fun x => some x) } }, none) := by
  induction ds generalizing acc with
  | nil => simp [deliverAll]
  | cons da rest ih =>
      obtain ⟨d, a⟩ := da
      simp only [List.length_cons] at h
      have hfull : PQueue.full { maxsize := qs, items := acc } = false := by
        rcases h with h | h
        · simp [PQueue.full, h]
        · have h0 : qs ≠ 0 := by omega
          have h1 : ¬ (qs ≤ acc.length) := by omega
          simp [PQueue.full, h0, h1]
      have step :
          deliverAll { error := none, packets_queue := { maxsize := qs, items := acc } }
              ((d, a) :: rest) =
            deliverAll { error := none,
                         packets_queue := { maxsize := qs, items := acc ++ [some (d, a)] } }
              rest := by
        simp [deliverAll, UDPProtocol.datagram_received, PQueue.put_nowait, hfull]
      rw [step, ih (acc ++ [some (d, a)]) (by simp; omega)]
      simp

/-- Successive receives on a channel with an empty latch drain the queued
envelopes in order. -/
lemma receiveList_drains_queue (t : Transport) (qs : Nat) (l : List Envelope) :
    receiveList
        { transport := t,
          protocol := { error := none, packets_queue := { maxsize := qs, items := l } } }
        l.length =
      (l, { transport := t,
            protocol := { error := none,
                          packets_queue := { maxsize := qs, items := [] } } }) := by
  induction l with
  | nil => rfl
  | cons env rest ih =>
      simp only [List.length_cons, receiveList, UDPSocket.recvfrom, UDPProtocol.recvfrom,
                 UDPProtocol.raise_if_error]
      rw [ih]

/-- C4: with queue capacity at least the number of datagrams delivered
(capacity 0 meaning unbounded), delivering datagrams to a fresh bridge
queues them without overflow, and the sequence of envelopes returned by
successive `receive()` calls equals the delivered datagrams in
callback-arrival order. -/
theorem udp_receive_order_matches_arrival (qs : Nat) (t : Transport)
    (ds : List (Bytes × IPAddress)) (h : qs = 0 ∨ ds.length ≤ qs) :
    deliverAll (UDPProtocol.init qs) ds =
      ({ error := none,
         packets_queue := { maxsize := qs, items := ds.map (fun x => some x) } }, none) ∧
    receiveList
        { transport := t,
          protocol := { error := none,
                        packets_queue := { maxsize := qs, items := ds.map (fun x => some x) } } }
        ds.length =
      (ds.map (fun x => some x),
       { transport := t, protocol := UDPProtocol.init qs }) := by
  constructor
  · have hd := deliverAll_within_capacity qs [] ds (by simpa using h)
    simpa [UDPProtocol.init] using hd
  · have hr := receiveList_drains_queue t qs (ds.map (fun x => some x))
    simpa [UDPProtocol.init] using hr

/-- Three concrete datagrams from one client. -/
def datagramsW : List (Bytes × IPAddress) :=
  [([1], .v4 "c" 1), ([2], .v4 "c" 1), ([3], .v4 "c" 1)]

/-- Witness for C4: datagrams D1, D2, D3 delivered to a bridge of
capacity 3 come back from `receive` as D1, D2, D3. -/
theorem udp_receive_order_witness :
    deliverAll (UDPProtocol.init 3) datagramsW =
      ({ error := none,
         packets_queue := { maxsize := 3, items := datagramsW.map (fun x => some x) } }, none) ∧
    receiveList
        { transport := { remote_addr := none, sent := [] },
          protocol := { error := none,
                        packets_queue := { maxsize := 3,
                                           items := datagramsW.map (fun x => some x) } } }
        datagramsW.length =
      (datagramsW.map (fun x => some x),
       { transport := { remote_addr := none, sent := [] }, protocol := UDPProtocol.init 3 }) :=
  udp_receive_order_matches_arrival 3 { remote_addr := none, sent := [] } datagramsW
    (Or.inr (by decide))

/-- C7: `receive_exactly(n)` either returns a byte string of length
exactly `n`, or, when the stream closes after delivering fewer than `n`
bytes, fails with `IncompleteRead`; the failing branch carries no byte
string, so no partial result reaches the caller. -/
theorem recv_exactly_exact_or_incomplete (s : TCPSocket) (n : Nat)
    (res : Except Exn (List Nat)) (s2 : TCPSocket)
    (h : TCPSocket.recv_exactly s n = some (res, s2)) :
    (∃ bs, res = .ok bs ∧ bs.length = n) ∨
    (s.reader.data.length < n ∧ s.reader.eof = true ∧ res = .error .incompleteRead) := by
  by_cases h1 : n ≤ s.reader.data.length
  · left
    simp [TCPSocket.recv_exactly, StreamReader.readexactly, h1] at h
    refine ⟨s.reader.data.take n, ?_, ?_⟩
    · exact h.1.symm
    · simp [List.length_take]
      omega
  · by_cases h2 : s.reader.eof = true
    · right
      simp [TCPSocket.recv_exactly, StreamReader.readexactly, h1, h2] at h
      exact ⟨by omega, h2, h.1.symm⟩
    · exfalso
      simp [TCPSocket.recv_exactly, StreamReader.readexactly, h1, h2] at h

/-- A stream that delivers three bytes and then closes. -/
def tcpShort : TCPSocket := { reader := { data := [10, 20, 30], eof := true } }

/-- Witness for C7: reading exactly five bytes from a stream that closes
after three fails with `IncompleteRead` and returns no bytes. -/
theorem recv_exactly_witness :
    (∃ bs, (Except.error Exn.incompleteRead : Except Exn (List Nat)) = .ok bs ∧ bs.length = 5) ∨
    (tcpShort.reader.data.length < 5 ∧ tcpShort.reader.eof = true ∧
     (Except.error Exn.incompleteRead : Except Exn (List Nat)) = .error .incompleteRead) :=
  recv_exactly_exact_or_incomplete tcpShort 5 (.error .incompleteRead)
    { reader := { data := [], eof := true } } rfl

/-- The three units of work of the supervisor example: the second one
fails. -/
def unitA : PyTask := { name := "Task-2", coroName := "work_a", outcome := .result 1 }

/-- Second unit of the supervisor example, the failing one. -/
def unitB : PyTask := { name := "Task-3", coroName := "work_b",
                        outcome := .failure (.transportError 3) }

/-- Third unit of the supervisor example. -/
def unitC : PyTask := { name := "Task-4", coroName := "work_c", outcome := .result 3 }

/-- C8: counterexample.  The claim says the supervisor call returns a
per-unit outcome report to its caller.  The source function is annotated
`-> None` and ends in a bare `return`: the value handed back to the
caller for the three-unit run is the same unit value as for a run with no
units at all, so it carries no per-unit entries — the three-entry report
(first and third successful, second a captured failure) exists only in
the lines emitted through the injected logging capability. -/
theorem supervisor_returns_no_report_counterexample :
    (wait_all_tasks_done_explicit [unitA, unitB, unitC] true).1 =
      (wait_all_tasks_done_explicit [] true).1 ∧
    (wait_all_tasks_done_explicit [unitA, unitB, unitC] true).2 =
      [logEntryFor unitA (.result 1),
       logEntryFor unitB (.failure (.transportError 3)),
       logEntryFor unitC (.result 3)] := by
  constructor
  · rfl
  · rfl

/-- Zipping a task list with its own gathered outcomes and logging each
pair logs one entry per task, carrying that task's own outcome. -/
lemma zip_outcomes_map (l : List PyTask) :
    (l.zip (l.map (fun t => t.outcome))).map (fun tr => logEntryFor tr.1 tr.2) =
      l.map (fun t => logEntryFor t t.outcome) := by
  induction l with
  | nil => rfl
  | cons t rest ih => simp [ih]

/-- C8 (amended): given an explicit collection of units of work the
supervisor awaits all of them, a failing unit neither cancels nor blocks
the reporting of the others, and (with logging enabled) it emits one log
entry per unit in input order, each recording that unit's own result
value or captured failure; the call itself returns nothing to its
caller. -/
theorem supervisor_logs_per_unit_report (tasks : List PyTask) :
    (wait_all_tasks_done_explicit tasks true).1 = () ∧
    (wait_all_tasks_done_explicit tasks true).2 =
      tasks.map (fun t => logEntryFor t t.outcome) := by
  refine ⟨rfl, ?_⟩
  simp [wait_all_tasks_done_explicit, gather_return_exceptions, zip_outcomes_map]

/-- C10: each discovery-mode scan removes from the awaited set only tasks
named `Task-1`, and at most one of them: the surviving list is a sublist
of the scan, every task not named `Task-1` keeps its full multiplicity
(so the supervisor's own task is awaited whenever it is not named
`Task-1`), at most one element is removed, and exactly one task named
`Task-1` is removed whenever the scan contains one. -/
theorem scan_excludes_only_first_task1 (ts : List PyTask) :
    (removeFirstTask1 ts).Sublist ts ∧
    (∀ t : PyTask, t.name ≠ "Task-1" → (removeFirstTask1 ts).count t = ts.count t) ∧
    ts.length ≤ (removeFirstTask1 ts).length + 1 ∧
    (removeFirstTask1 ts).countP (fun t => decide (t.name = "Task-1")) +
        (if ts.any (fun t => decide (t.name = "Task-1")) then 1 else 0) =
      ts.countP (fun t => decide (t.name = "Task-1")) := by
  induction ts with
  | nil => simp [removeFirstTask1]
  | cons t rest ih =>
      by_cases hn : t.name = "Task-1"
      · refine ⟨?_, ?_, ?_, ?_⟩
        · simp only [removeFirstTask1, hn, if_pos]
          exact List.Sublist.cons t (List.Sublist.refl rest)
        · intro u hu
          have hne : u ≠ t := by
            intro he
            exact hu (he ▸ hn)
          simp [removeFirstTask1, hn, List.count_cons, hne]
        · simp [removeFirstTask1, hn]
        · simp [removeFirstTask1, hn, List.countP_cons]
      · refine ⟨?_, ?_, ?_, ?_⟩
        · simp only [removeFirstTask1, hn, if_neg, not_false_iff]
          exact List.Sublist.cons₂ t ih.1
        · intro u hu
          simp [removeFirstTask1, hn, List.count_cons, ih.2.1 u hu]
        · have := ih.2.2.1
          simp [removeFirstTask1, hn]
          omega
        · have hrec := ih.2.2.2
          simp [removeFirstTask1, hn, List.countP_cons, List.any_cons] at hrec ⊢
          omega

/-- The root task of the discovery example. -/
def taskMain : PyTask := { name := "Task-1", coroName := "amain", outcome := .result 0 }

/-- A worker task of the discovery example. -/
def taskWorker : PyTask := { name := "Task-2", coroName := "run", outcome := .result 0 }

/-- Witness for C10: in a scan holding the root task and one worker, the
worker keeps its multiplicity in the awaited set. -/
theorem scan_excludes_witness :
    (removeFirstTask1 [taskMain, taskWorker]).count taskWorker =
      ([taskMain, taskWorker] : List PyTask).count taskWorker :=
  (scan_excludes_only_first_task1 [taskMain, taskWorker]).2.1 taskWorker (by decide)

/-- A non-empty scan contributes no empty triple at its own position. -/
lemma hasEmptyTriple_cons_of_busy (a : List PyTask) (rest : List (List PyTask))
    (h : emptyScanB a = false) :
    hasEmptyTriple (a :: rest) = hasEmptyTriple rest := by
  match rest with
  | [] => simp [hasEmptyTriple]
  | [b] => simp [hasEmptyTriple]
  | b :: c :: r => simp [hasEmptyTriple, h]

/-- Any empty triple of the tail is an empty triple of the whole list. -/
lemma hasEmptyTriple_cons_of_tail (a : List PyTask) (rest : List (List PyTask))
    (h : hasEmptyTriple rest = true) :
    hasEmptyTriple (a :: rest) = true := by
  match rest with
  | [] => simp [hasEmptyTriple] at h
  | [b] => simp [hasEmptyTriple] at h
  | b :: c :: r => simp [hasEmptyTriple, h]

/-- Prepending an empty scan: the list has an empty triple exactly when
the tail has one or starts with two further empty scans. -/
lemma hasEmptyTriple_cons_of_empty (a : List PyTask) (rest : List (List PyTask))
    (h : emptyScanB a = true) :
    (hasEmptyTriple (a :: rest) = true) ↔
      (hasEmptyTriple rest = true ∨ 2 ≤ leadingEmpty rest) := by
  match rest with
  | [] => simp [hasEmptyTriple, leadingEmpty]
  | [b] =>
      cases hb : emptyScanB b <;>
        simp [hasEmptyTriple, leadingEmpty, hb]
  | b :: c :: r =>
      cases hb : emptyScanB b <;> cases hc : emptyScanB c <;>
        simp [hasEmptyTriple, leadingEmpty, h, hb, hc]

/-- Three leading empty scans form an empty triple. -/
lemma hasEmptyTriple_of_leadingEmpty (l : List (List PyTask)) (h : 3 ≤ leadingEmpty l) :
    hasEmptyTriple l = true := by
  match l with
  | [] => simp [leadingEmpty] at h
  | [a] =>
      cases ha : emptyScanB a <;> simp [leadingEmpty, ha] at h
  | [a, b] =>
      cases ha : emptyScanB a <;> cases hb : emptyScanB b <;>
        simp [leadingEmpty, ha, hb] at h
  | a :: b :: c :: r =>
      cases ha : emptyScanB a <;> cases hb : emptyScanB b <;> cases hc : emptyScanB c <;>
        simp_all [leadingEmpty, hasEmptyTriple]

/-- Characterisation of discovery-loop termination: starting with
consecutive-empty counter `e ≤ 2`, the loop breaks within the scan oracle
exactly when the oracle has three consecutive empty scans, or enough
leading empty scans to reach the threshold together with the carried-in
counter. -/
lemma discoveryRun_done_iff (lr : Bool) (l : List (List PyTask)) :
    ∀ e, e ≤ 2 → ∀ logs,
      (∃ lg, discoveryRun lr e logs l = .done lg) ↔
        (hasEmptyTriple l = true ∨ 3 ≤ e + leadingEmpty l) := by
  induction l with
  | nil =>
      intro e he logs
      simp [discoveryRun, hasEmptyTriple, leadingEmpty]
      omega
  | cons scan rest ih =>
      intro e he logs
      by_cases hs : emptyScanB scan = true
      · have hle : leadingEmpty (scan :: rest) = leadingEmpty rest + 1 := by
          simp [leadingEmpty, hs]
        rcases Nat.lt_or_ge e 2 with h2 | h2
        · have hc : ¬ (e + 1 > 2) := by omega
          have hstep : discoveryRun lr e logs (scan :: rest) =
              discoveryRun lr (e + 1) logs rest := by
            unfold emptyScanB at hs
            simp [discoveryRun, hs, hc]
          rw [hstep, ih (e + 1) (by omega) logs, hle]
          constructor
          · rintro (ht | hn)
            · exact Or.inl (hasEmptyTriple_cons_of_tail scan rest ht)
            · right; omega
          · rintro (ht | hn)
            · rcases (hasEmptyTriple_cons_of_empty scan rest hs).mp ht with ht2 | hl2
              · exact Or.inl ht2
              · right; omega
            · right; omega
        · have he2 : e = 2 := by omega
          subst he2
          have hstep : discoveryRun lr 2 logs (scan :: rest) = .done logs := by
            unfold emptyScanB at hs
            simp [discoveryRun, hs]
          rw [hstep, hle]
          constructor
          · intro _
            right
            omega
          · intro _
            exact ⟨logs, rfl⟩
      · have hs' : emptyScanB scan = false := by
          cases hv : emptyScanB scan
          · rfl
          · exact absurd hv hs
        have hle : leadingEmpty (scan :: rest) = 0 := by
          simp [leadingEmpty, hs']
        have hstep : discoveryRun lr e logs (scan :: rest) =
            discoveryRun lr 0
              (logs ++ (if lr then
                ((removeFirstTask1 scan).zip
                    (gather_return_exceptions (removeFirstTask1 scan))).map
                  (fun tr => logEntryFor tr.1 tr.2)
              else [])) rest := by
          unfold emptyScanB at hs'
          simp [discoveryRun, hs']
        rw [hstep, ih 0 (by omega) _, hle, hasEmptyTriple_cons_of_busy scan rest hs']
        constructor
        · rintro (ht | hn)
          · exact Or.inl ht
          · exact Or.inl (hasEmptyTriple_of_leadingEmpty rest (by omega))
        · rintro (ht | hn)
          · exact Or.inl ht
          · exact absurd hn (by omega)

/-- C9: the discovery-mode loop's control behaviour.  A scan that is
non-empty after the root-task removal awaits and logs the discovered
tasks and resets the consecutive-empty counter to zero; an empty scan
below the threshold increments the counter and continues; the scan that
makes the counter exceed two terminates the loop; and, starting from a
zero counter, the loop terminates within a scan oracle exactly when the
oracle contains three consecutive empty scans (the default "more than
two consecutive empty scans" threshold, the only one the code has). -/
theorem discovery_terminates_iff_three_empty_scans (lr : Bool) (l : List (List PyTask)) :
    (∀ e logs scan rest, emptyScanB scan = false →
      discoveryRun lr e logs (scan :: rest) =
        discoveryRun lr 0
          (logs ++ (if lr then
            ((removeFirstTask1 scan).zip
                (gather_return_exceptions (removeFirstTask1 scan))).map
              (fun tr => logEntryFor tr.1 tr.2)
          else [])) rest) ∧
    (∀ e logs scan rest, e + 1 ≤ 2 → emptyScanB scan = true →
      discoveryRun lr e logs (scan :: rest) = discoveryRun lr (e + 1) logs rest) ∧
    (∀ logs scan rest, emptyScanB scan = true →
      discoveryRun lr 2 logs (scan :: rest) = .done logs) ∧
    ((∃ lg, discoveryRun lr 0 [] l = .done lg) ↔ hasEmptyTriple l = true) := by
  refine ⟨?_, ?_, ?_, ?_⟩
  · intro e logs scan rest hs
    unfold emptyScanB at hs
    simp [discoveryRun, hs]
  · intro e logs scan rest he hs
    unfold emptyScanB at hs
    have hc : ¬ (e + 1 > 2) := by omega
    simp [discoveryRun, hs, hc]
  · intro logs scan rest hs
    unfold emptyScanB at hs
    simp [discoveryRun, hs]
  · rw [discoveryRun_done_iff lr l 0 (by omega) []]
    constructor
    · rintro (ht | hn)
      · exact ht
      · exact hasEmptyTriple_of_leadingEmpty l (by omega)
    · intro ht
      exact Or.inl ht

/-- Witness for C9: a third consecutive empty scan (counter at two)
terminates the loop. -/
theorem discovery_loop_witness :
    discoveryRun true 2 [] [[]] = .done [] :=
  (discovery_terminates_iff_three_empty_scans true [[]]).2.2.1 [] [] [] rfl
